import Mathlib

/-!
Verification of the chart data pipeline of the `chart-test` repository
(`src/app/chart/chart.controller.js` and `src/app/services/sales.service.js`).

The controller is embedded shallowly:
* pure pieces (`sortData`'s comparator, `formatData`'s reshape, the
  `$filter`-based axis-label lookup) become Lean functions;
* the mutable controller (the `tempData` array, `this.model`, the chart
  options) becomes an explicit state type.  JavaScript arrays are heap
  objects, and `model.data` stores *references* to the `tempData` array for
  the bar and pie shapes, so the state carries an explicit heap of record
  arrays and `model.data` is modelled by a reference-carrying datatype.
* JavaScript numbers are modelled as integers, and the locale-aware
  collation of `String.prototype.localeCompare` is modelled by the
  lexicographic order on strings.
-/

namespace ChartTest

/-- One data point returned by the backend: `{label: string, value: number}`
(numeric values modelled as integers). -/
structure SalesRec where
  label : String
  value : Int
deriving DecidableEq

/-- Lexicographic strict order on character lists, comparing code points. -/
def strLt : List Char → List Char → Bool
  | [], [] => false
  | [], _ :: _ => true
  | _ :: _, [] => false
  | a :: as, b :: bs =>
    if a.toNat < b.toNat then true
    else if b.toNat < a.toNat then false
    else strLt as bs

/-- Model of `a.localeCompare(b)`: negative when `a` collates before `b`,
positive when after, zero when equal; the locale-aware collation is modelled
by the lexicographic order on the strings' code points. -/
def localeCompare (a b : String) : Int :=
  if strLt a.data b.data then -1 else if strLt b.data a.data then 1 else 0

/-- The comparator passed to `tempData.sort` in `sortData`
(chart.controller.js lines 104-120): a `switch` on `orderBy`.  For an
unrecognized `orderBy` the JavaScript comparator returns `undefined`, which
the ECMAScript sort algorithm coerces to `+0`; hence the final branch is 0. -/
def jsCompare (orderBy : String) (a b : SalesRec) : Int :=
  if orderBy = "A to Z" then localeCompare a.label b.label
  else if orderBy = "Z to A" then localeCompare b.label a.label
  else if orderBy = "min to max" then a.value - b.value
  else if orderBy = "max to min" then b.value - a.value
  else 0

/-- The "sorts no later than" relation induced by the comparator. -/
def jsLe (orderBy : String) (a b : SalesRec) : Prop :=
  jsCompare orderBy a b ≤ 0

instance jsLeDec (orderBy : String) : DecidableRel (jsLe orderBy) :=
  fun a b => inferInstanceAs (Decidable (jsCompare orderBy a b ≤ 0))

/-- `tempData.sort(comparator)`: ECMAScript requires `Array.prototype.sort`
to be stable, so it is modelled by a stable sort (insertion sort) on the
comparator's "no later than" relation. -/
def sortPure (orderBy : String) (l : List SalesRec) : List SalesRec :=
  l.insertionSort (jsLe orderBy)

/-- The four `orderBy` values recognized by the comparator's `switch`. -/
def recognizedOrderBys : List String :=
  ["A to Z", "Z to A", "min to max", "max to min"]

/-- A point of a stacked-area series: `{label: 0|1, value: ...}` (numeric label). -/
structure AreaPoint where
  label : Int
  value : Int
deriving DecidableEq

/-- One series of the stacked-area reshape: `{key: record.label, values: [...]}`. -/
structure AreaSeries where
  key : String
  values : List AreaPoint
deriving DecidableEq

/-- One series of the bar reshape: `{key: cohort, values: records}`. -/
structure BarSeries where
  key : String
  values : List SalesRec
deriving DecidableEq

/-- The value held by `model.data` (the RenderSpec), by chart type. -/
inductive RenderSpec where
  | bar (series : List BarSeries)
  | area (series : List AreaSeries)
  | raw (records : List SalesRec)
deriving DecidableEq

/-- The reshape step of `formatData` (chart.controller.js lines 122-137) as a
pure function of the chart type, the current cohort and the records: the
`switch(this.model.chartType)` with its three branches. -/
def formatDataPure (chartType cohort : String) (records : List SalesRec) : RenderSpec :=
  if chartType = "discreteBarChart" then
    .bar [⟨cohort, records⟩]
  else if chartType = "stackedAreaChart" then
    .area (records.map fun d => ⟨d.label, [⟨0, 0⟩, ⟨1, d.value⟩]⟩)
  else
    .raw records

/-- One entry of a settings drop-down list: `{name, value}`. -/
structure SettingOption where
  name : String
  value : String
deriving DecidableEq

/-- One settings drop-down: `{name, prop, onChange, values}`. -/
structure Setting where
  name : String
  prop : String
  onChange : String
  values : List SettingOption
deriving DecidableEq

/-- The `this.settings` catalog, verbatim from chart.controller.js lines 39-81. -/
def settings : List Setting :=
  [ ⟨"Chart Type", "chartType", "updateChart",
      [⟨"Bar", "discreteBarChart"⟩, ⟨"Line", "stackedAreaChart"⟩, ⟨"Pie", "pieChart"⟩]⟩,
    ⟨"Cohort", "cohort", "updateData",
      [⟨"All Records", ""⟩, ⟨"Product", "product"⟩, ⟨"Category", "category"⟩,
        ⟨"Channel", "channel"⟩]⟩,
    ⟨"Statistic", "statistic", "updateData",
      [⟨"Count", ""⟩, ⟨"Sum", "sum"⟩]⟩,
    ⟨"Order By", "orderBy", "sortData",
      [⟨"Ascending", "A to Z"⟩, ⟨"Descending", "Z to A"⟩,
        ⟨"Smallest to Largest", "min to max"⟩, ⟨"Largest to Smallest", "max to min"⟩]⟩ ]

/-- AngularJS `$filter('filter')` object-pattern matching for string fields:
the default comparator is a case-insensitive substring test
(`actual.toLowerCase().indexOf(expected.toLowerCase()) !== -1`). -/
def angularMatch (actual expected : String) : Bool :=
  decide ((expected.toList.map Char.toLower) <:+: (actual.toList.map Char.toLower))

/-- The axis-label lookup of `updateChart` (chart.controller.js lines 83-93):
`$filter('filter')(settings, {prop: p})[0].values`, then
`$filter('filter')(values, {value: v})[0].name`.  `none` models the
`TypeError` JavaScript would raise when a filter result is empty. -/
def lookupDisplayName (p v : String) : Option String :=
  match settings.filter (fun s => angularMatch s.prop p) with
  | [] => none
  | s :: _ =>
    match s.values.filter (fun o => angularMatch o.value v) with
    | [] => none
    | o :: _ => some o.name

/-- A heap-level `model.data`: the bar and pie shapes store a *reference* to
the `tempData` array (the JavaScript code stores the array object itself, not
a copy), while every stacked-area series is built from fresh objects. -/
inductive DataRef where
  | bar (key : String) (valuesRef : Nat)
  | area (series : List AreaSeries)
  | raw (ref : Nat)
deriving DecidableEq

/-- The `this.model` object of the controller. -/
structure Model where
  chartType : String
  cohort : String
  statistic : String
  orderBy : String
  data : DataRef
deriving DecidableEq

/-- The controller state.  `heap` models the JavaScript heap of record
arrays; `tempData` is the index of the array currently bound to the
controller's `tempData` variable.  `chartOptionsType`, `xAxisLabel` and
`yAxisLabel` are the parts of `this.options.chart` that `updateChart`
assigns (`none` models a label lookup JavaScript would crash on). -/
structure CState where
  heap : List (List SalesRec)
  tempData : Nat
  model : Model
  chartOptionsType : String
  xAxisLabel : Option String
  yAxisLabel : Option String
deriving DecidableEq

/-- The record array currently referenced by `tempData`. -/
def CState.records (s : CState) : List SalesRec :=
  s.heap.getD s.tempData []

/-- Dereference a heap-level `model.data` into the value a consumer of the
RenderSpec observes at that moment. -/
def derefSpec (heap : List (List SalesRec)) : DataRef → RenderSpec
  | .bar k r => .bar [⟨k, heap.getD r []⟩]
  | .area ss => .area ss
  | .raw r => .raw (heap.getD r [])

/-- `this.formatData` (chart.controller.js lines 122-137): recomputes
`model.data` from the current chart type, cohort and `tempData`; the bar and
pie branches store the `tempData` array by reference. -/
def formatData (s : CState) : CState :=
  { s with model := { s.model with data :=
      (if s.model.chartType = "discreteBarChart" then
        .bar s.model.cohort s.tempData
      else if s.model.chartType = "stackedAreaChart" then
        .area (s.records.map fun d => ⟨d.label, [⟨0, 0⟩, ⟨1, d.value⟩]⟩)
      else
        .raw s.tempData) } }

/-- `this.sortData` (chart.controller.js lines 104-120): sorts the
`tempData` array *in place* (the heap cell is overwritten), then reformats. -/
def sortData (s : CState) : CState :=
  formatData { s with heap := s.heap.set s.tempData (sortPure s.model.orderBy s.records) }

/-- `this.updateChart` (chart.controller.js lines 83-93): reformats, then
assigns the chart type and the axis labels looked up from the settings
catalog. -/
def updateChart (s : CState) : CState :=
  let s1 := formatData s
  { s1 with
      chartOptionsType := s1.model.chartType,
      xAxisLabel := lookupDisplayName "cohort" s1.model.cohort,
      yAxisLabel := lookupDisplayName "statistic" s1.model.statistic }

/-- An externally observable effect of a controller operation. -/
inductive Effect where
  | fetch (stat cohort : String)
  | report (msg : String)
deriving DecidableEq

/-- `this.updateData` (chart.controller.js lines 95-102): issues exactly one
`SalesService.getData` query carrying the current `(statistic, cohort)`; the
controller state is unchanged until a response arrives. -/
def updateData (s : CState) : CState × List Effect :=
  (s, [.fetch s.model.statistic s.model.cohort])

/-- The success callback registered by `updateData`:
`tempData = data; self.sortData(); self.updateChart();`.  The fresh array
delivered by the service is modelled by allocating a new heap cell. -/
def applyFetchSuccess (s : CState) (data : List SalesRec) : CState :=
  updateChart (sortData { s with heap := s.heap ++ [data], tempData := s.heap.length })

/-- The outcome of a `SalesService.getData` request. -/
inductive FetchResult where
  | success (data : List SalesRec)
  | failure (err : String)

/-- Response handling of `updateData`: only a success callback is passed to
`SalesService.getData` (`SalesResource.query({...}, callback)` registers no
error handler), so a failed request changes nothing and emits nothing.
`Effect.report` is the UI-visible error notification the spec asks for; it
exists in the effect alphabet so that its absence is expressible. -/
def handleResult (s : CState) : FetchResult → CState × List Effect
  | .success d => (applyFetchSuccess s d, [])
  | .failure _ => (s, [])

/-- Modelled from the spec: the template wiring that applies a settings
change is not under src.  Per §4.1 (`setSelection`), a change assigns the
model property named by the setting's `prop`; this is that assignment. -/
def setProp (s : CState) (p v : String) : CState :=
  if p = "chartType" then { s with model := { s.model with chartType := v } }
  else if p = "cohort" then { s with model := { s.model with cohort := v } }
  else if p = "statistic" then { s with model := { s.model with statistic := v } }
  else if p = "orderBy" then { s with model := { s.model with orderBy := v } }
  else s

/-- Dispatch of a settings entry's `onChange` handler name to the controller
method of that name. -/
def dispatchOnChange (s : CState) (handler : String) : CState × List Effect :=
  if handler = "updateChart" then (updateChart s, [])
  else if handler = "updateData" then updateData s
  else if handler = "sortData" then (sortData s, [])
  else (s, [])

/-- Modelled from the spec: a `setSelection`-style change (§4.1) sets the
model property named by the setting's `prop` and then invokes the controller
method named by that setting's `onChange` entry in the `settings` catalog. -/
def setField (s : CState) (p v : String) : CState × List Effect :=
  let s1 := setProp s p v
  match settings.find? (fun st => st.prop = p) with
  | none => (s1, [])
  | some st => dispatchOnChange s1 st.onChange

/-- The controller's initial state: `tempData = []` and `model.data = []`
are two distinct fresh empty arrays; the model fields are as initialized in
chart.controller.js lines 4-10, and `options.chart.type` starts as the
model's chart type. -/
def initState : CState :=
  { heap := [[], []],
    tempData := 0,
    model :=
      { chartType := "discreteBarChart", cohort := "", statistic := "",
        orderBy := "A to Z", data := .raw 1 },
    chartOptionsType := "discreteBarChart",
    xAxisLabel := none,
    yAxisLabel := none }

/-- The cohort display-name table claimed by the spec (§6). -/
def specCohortDisplay (c : String) : String :=
  if c = "" then "All Records"
  else if c = "product" then "Product"
  else if c = "category" then "Category"
  else "Channel"

/-- The statistic display-name table claimed by the spec (§6). -/
def specStatisticDisplay (st : String) : String :=
  if st = "" then "Count" else "Sum"

theorem strLt_asymm (a b : List Char) (h : strLt a b = true) : strLt b a = false := by
  induction a generalizing b with
  | nil => cases b <;> simp_all [strLt]
  | cons x xs ih =>
    cases b with
    | nil => simp [strLt] at h
    | cons y ys =>
      simp only [strLt] at h ⊢
      by_cases h1 : x.toNat < y.toNat
      · have h2 : ¬ y.toNat < x.toNat := by omega
        simp [h1, h2]
      · by_cases h2 : y.toNat < x.toNat
        · simp [h1, h2] at h
        · simp [h1, h2] at h ⊢
          exact ih ys h

theorem strLt_trans (a b c : List Char) (h1 : strLt a b = true) (h2 : strLt b c = true) :
    strLt a c = true := by
  induction a generalizing b c with
  | nil =>
    cases b with
    | nil => simp [strLt] at h1
    | cons y ys => cases c with
      | nil => simp [strLt] at h2
      | cons z zs => simp [strLt]
  | cons x xs ih =>
    cases b with
    | nil => simp [strLt] at h1
    | cons y ys =>
      cases c with
      | nil => simp [strLt] at h2
      | cons z zs =>
        simp only [strLt] at h1 h2 ⊢
        rcases Nat.lt_trichotomy x.toNat y.toNat with hxy | hxy | hxy
        · rcases Nat.lt_trichotomy y.toNat z.toNat with hyz | hyz | hyz
          · simp [show x.toNat < z.toNat by omega]
          · simp [show x.toNat < z.toNat by omega]
          · simp [show ¬ y.toNat < z.toNat by omega, hyz] at h2
        · rcases Nat.lt_trichotomy y.toNat z.toNat with hyz | hyz | hyz
          · simp [show x.toNat < z.toNat by omega]
          · simp [show ¬ x.toNat < y.toNat by omega,
              show ¬ y.toNat < x.toNat by omega] at h1
            simp [show ¬ y.toNat < z.toNat by omega,
              show ¬ z.toNat < y.toNat by omega] at h2
            simp [show ¬ x.toNat < z.toNat by omega,
              show ¬ z.toNat < x.toNat by omega]
            exact ih ys zs h1 h2
          · simp [show ¬ y.toNat < z.toNat by omega, hyz] at h2
        · simp [show ¬ x.toNat < y.toNat by omega, hxy] at h1

theorem strLt_eq_of_not (a b : List Char) (h1 : strLt a b = false) (h2 : strLt b a = false) :
    a = b := by
  induction a generalizing b with
  | nil => cases b <;> simp_all [strLt]
  | cons x xs ih =>
    cases b with
    | nil => simp [strLt] at h2
    | cons y ys =>
      simp only [strLt] at h1 h2
      rcases Nat.lt_trichotomy x.toNat y.toNat with hxy | hxy | hxy
      · simp [hxy] at h1
      · simp [show ¬ x.toNat < y.toNat by omega,
          show ¬ y.toNat < x.toNat by omega] at h1 h2
        have hx : x = y := by
          rw [← Char.ofNat_toNat x, ← Char.ofNat_toNat y, hxy]
        rw [hx, ih ys h1 h2]
      · simp [hxy] at h2

theorem localeCompare_nonpos (a b : String) :
    localeCompare a b ≤ 0 ↔ strLt b.data a.data = false := by
  cases h1 : strLt a.data b.data with
  | true => simp [localeCompare, h1, strLt_asymm _ _ h1]
  | false =>
    cases h2 : strLt b.data a.data with
    | true => simp [localeCompare, h1, h2]
    | false => simp [localeCompare, h1, h2]

theorem strLt_false_trans {a b c : List Char} (h1 : strLt b a = false)
    (h2 : strLt c b = false) : strLt c a = false := by
  cases hab : strLt a b with
  | true =>
    cases hbc : strLt b c with
    | true => exact strLt_asymm _ _ (strLt_trans _ _ _ hab hbc)
    | false =>
      have hbceq : b = c := strLt_eq_of_not _ _ hbc h2
      rw [← hbceq]
      exact h1
  | false =>
    have habeq : a = b := strLt_eq_of_not _ _ hab h1
    rw [← habeq] at h2
    exact h2

theorem jsLe_AtoZ (a b : SalesRec) :
    jsLe "A to Z" a b ↔ strLt b.label.data a.label.data = false := by
  show jsCompare "A to Z" a b ≤ 0 ↔ _
  rw [show jsCompare "A to Z" a b = localeCompare a.label b.label from rfl]
  exact localeCompare_nonpos _ _

theorem jsLe_ZtoA (a b : SalesRec) :
    jsLe "Z to A" a b ↔ strLt a.label.data b.label.data = false := by
  show jsCompare "Z to A" a b ≤ 0 ↔ _
  rw [show jsCompare "Z to A" a b = localeCompare b.label a.label from rfl]
  exact localeCompare_nonpos _ _

theorem jsLe_minToMax (a b : SalesRec) : jsLe "min to max" a b ↔ a.value ≤ b.value := by
  show jsCompare "min to max" a b ≤ 0 ↔ _
  rw [show jsCompare "min to max" a b = a.value - b.value from rfl]
  omega

theorem jsLe_maxToMin (a b : SalesRec) : jsLe "max to min" a b ↔ b.value ≤ a.value := by
  show jsCompare "max to min" a b ≤ 0 ↔ _
  rw [show jsCompare "max to min" a b = b.value - a.value from rfl]
  omega

theorem jsCompare_other (ob : String) (hob : ob ∉ recognizedOrderBys) (a b : SalesRec) :
    jsCompare ob a b = 0 := by
  simp only [recognizedOrderBys, List.mem_cons, List.not_mem_nil, or_false, not_or] at hob
  obtain ⟨h1, h2, h3, h4⟩ := hob
  simp [jsCompare, h1, h2, h3, h4]

theorem jsLe_total (ob : String) (a b : SalesRec) : jsLe ob a b ∨ jsLe ob b a := by
  by_cases h1 : ob = "A to Z"
  · subst h1
    rw [jsLe_AtoZ, jsLe_AtoZ]
    cases h : strLt a.label.data b.label.data with
    | true => exact Or.inl (strLt_asymm _ _ h)
    | false => exact Or.inr rfl
  · by_cases h2 : ob = "Z to A"
    · subst h2
      rw [jsLe_ZtoA, jsLe_ZtoA]
      cases h : strLt a.label.data b.label.data with
      | true => exact Or.inr (strLt_asymm _ _ h)
      | false => exact Or.inl rfl
    · by_cases h3 : ob = "min to max"
      · subst h3
        rw [jsLe_minToMax, jsLe_minToMax]
        omega
      · by_cases h4 : ob = "max to min"
        · subst h4
          rw [jsLe_maxToMin, jsLe_maxToMin]
          omega
        · left
          show jsCompare ob a b ≤ 0
          rw [jsCompare_other ob (by simp [recognizedOrderBys, h1, h2, h3, h4])]

theorem jsLe_trans (ob : String) (a b c : SalesRec) (hab : jsLe ob a b)
    (hbc : jsLe ob b c) : jsLe ob a c := by
  by_cases h1 : ob = "A to Z"
  · subst h1
    rw [jsLe_AtoZ] at hab hbc ⊢
    exact strLt_false_trans hab hbc
  · by_cases h2 : ob = "Z to A"
    · subst h2
      rw [jsLe_ZtoA] at hab hbc ⊢
      exact strLt_false_trans hbc hab
    · by_cases h3 : ob = "min to max"
      · subst h3
        rw [jsLe_minToMax] at hab hbc ⊢
        omega
      · by_cases h4 : ob = "max to min"
        · subst h4
          rw [jsLe_maxToMin] at hab hbc ⊢
          omega
        · show jsCompare ob a c ≤ 0
          rw [jsCompare_other ob (by simp [recognizedOrderBys, h1, h2, h3, h4])]

instance jsLeIsTotal (ob : String) : IsTotal SalesRec (jsLe ob) :=
  ⟨jsLe_total ob⟩

instance jsLeIsTrans (ob : String) : IsTrans SalesRec (jsLe ob) :=
  ⟨fun a b c => jsLe_trans ob a b c⟩

/-- C5: for every list of records and every `orderBy` among the four
recognized values, `sortData`'s sort returns a permutation of the list that
is ordered by the comparator selected by `orderBy` (locale-modelled label
comparison ascending/descending, numeric value comparison
ascending/descending), and the sort is stable: any chain of records that
mutually compare equal keeps its prior relative order in the output. -/
theorem sortData_sorted_stable (ob : String) (_hob : ob ∈ recognizedOrderBys)
    (l : List SalesRec) :
    (sortPure ob l).Perm l
    ∧ (sortPure ob l).Pairwise (fun a b => jsCompare ob a b ≤ 0)
    ∧ ∀ c : List SalesRec, c.Pairwise (fun a b => jsCompare ob a b = 0) →
        List.Sublist c l → List.Sublist c (sortPure ob l) := by
  refine ⟨List.perm_insertionSort (jsLe ob) l, List.sorted_insertionSort (jsLe ob) l, ?_⟩
  intro c hc hsub
  exact List.sublist_insertionSort (hc.imp fun h => le_of_eq h) hsub

/-- A record list with a label tie, used as the sort witness input. -/
def sortWitnessInput : List SalesRec :=
  [⟨"b", 2⟩, ⟨"a", 5⟩, ⟨"a", 1⟩]

/-- Witness for C5 at `orderBy = "A to Z"` on a list with a label tie. -/
theorem sortData_sorted_stable_witness :
    ("A to Z" ∈ recognizedOrderBys)
    ∧ ((sortPure "A to Z" sortWitnessInput).Perm sortWitnessInput
    ∧ (sortPure "A to Z" sortWitnessInput).Pairwise
        (fun a b => jsCompare "A to Z" a b ≤ 0)
    ∧ ∀ c : List SalesRec,
        c.Pairwise (fun a b => jsCompare "A to Z" a b = 0) →
        List.Sublist c sortWitnessInput →
        List.Sublist c (sortPure "A to Z" sortWitnessInput)) :=
  ⟨by decide, sortData_sorted_stable "A to Z" (by decide) sortWitnessInput⟩

/-- C6: reshaping with chart type `stackedAreaChart` yields exactly one
series per record, in the same order: the i-th series is keyed by the i-th
record's label and holds exactly the two points `{label:0,value:0}` and
`{label:1,value:record.value}`. -/
theorem formatData_stackedArea (c : String) (l : List SalesRec) :
    ∃ ss : List AreaSeries,
      formatDataPure "stackedAreaChart" c l = .area ss
      ∧ ss.length = l.length
      ∧ ∀ i : Nat, ss[i]? = l[i]?.map fun r => ⟨r.label, [⟨0, 0⟩, ⟨1, r.value⟩]⟩ := by
  refine ⟨l.map (fun r => AreaSeries.mk r.label [AreaPoint.mk 0 0, AreaPoint.mk 1 r.value]),
    ?_, by simp, fun i => ?_⟩
  · rfl
  · simp

/-- C7: reshaping with chart type `discreteBarChart` yields exactly one
series whose key is the current cohort and whose values are the input
records unchanged; at the heap level the series stores the very `tempData`
reference (identity pass-through, not a copy). -/
theorem formatData_bar (c : String) (l : List SalesRec) (s : CState)
    (h : s.model.chartType = "discreteBarChart") :
    formatDataPure "discreteBarChart" c l = .bar [⟨c, l⟩]
    ∧ (formatData s).model.data = .bar s.model.cohort s.tempData := by
  refine ⟨rfl, ?_⟩
  simp [formatData, h]

/-- Witness for C7 at the initial state (whose chart type is the bar chart). -/
theorem formatData_bar_witness :
    initState.model.chartType = "discreteBarChart"
    ∧ (formatDataPure "discreteBarChart" "product" [⟨"A", 5⟩]
          = .bar [⟨"product", [⟨"A", 5⟩]⟩]
    ∧ (formatData initState).model.data
          = .bar initState.model.cohort initState.tempData) :=
  ⟨rfl, formatData_bar "product" [⟨"A", 5⟩] initState rfl⟩

/-- C8: reshaping with any chart type other than `discreteBarChart` and
`stackedAreaChart` falls back to the pie behavior: the raw records sequence
is passed through unchanged (and the total function never throws). -/
theorem formatData_fallback (ct : String) (h1 : ct ≠ "discreteBarChart")
    (h2 : ct ≠ "stackedAreaChart") (c : String) (l : List SalesRec) :
    formatDataPure ct c l = .raw l := by
  simp [formatDataPure, h1, h2]

/-- Witness for C8 at chart type `pieChart`. -/
theorem formatData_fallback_witness :
    ("pieChart" ≠ "discreteBarChart" ∧ "pieChart" ≠ "stackedAreaChart")
    ∧ formatDataPure "pieChart" "" [⟨"A", 5⟩] = .raw [⟨"A", 5⟩] :=
  ⟨⟨by decide, by decide⟩,
    formatData_fallback "pieChart" (by decide) (by decide) "" [⟨"A", 5⟩]⟩

/-- C9: for every state whose cohort and statistic are catalog values,
`updateChart` assigns the x-axis label from the cohort's display name and
the y-axis label from the statistic's display name, as tabulated in the
spec's options catalog. -/
theorem updateChart_axis_labels (s : CState)
    (hc : s.model.cohort ∈ (["", "product", "category", "channel"] : List String))
    (hs : s.model.statistic ∈ (["", "sum"] : List String)) :
    (updateChart s).xAxisLabel = some (specCohortDisplay s.model.cohort)
    ∧ (updateChart s).yAxisLabel = some (specStatisticDisplay s.model.statistic) := by
  have hx : (updateChart s).xAxisLabel = lookupDisplayName "cohort" s.model.cohort := rfl
  have hy : (updateChart s).yAxisLabel =
      lookupDisplayName "statistic" s.model.statistic := rfl
  constructor
  · rw [hx]
    simp only [List.mem_cons, List.not_mem_nil, or_false] at hc
    rcases hc with h | h | h | h <;> rw [h] <;> decide
  · rw [hy]
    simp only [List.mem_cons, List.not_mem_nil, or_false] at hs
    rcases hs with h | h <;> rw [h] <;> decide

/-- A state selecting the `product` cohort and the `sum` statistic. -/
def axisWitnessState : CState :=
  { initState with model :=
      { initState.model with cohort := "product", statistic := "sum" } }

/-- Witness for C9 at cohort `product` and statistic `sum`. -/
theorem updateChart_axis_labels_witness :
    (axisWitnessState.model.cohort ∈ (["", "product", "category", "channel"] : List String)
      ∧ axisWitnessState.model.statistic ∈ (["", "sum"] : List String))
    ∧ ((updateChart axisWitnessState).xAxisLabel
          = some (specCohortDisplay axisWitnessState.model.cohort)
    ∧ (updateChart axisWitnessState).yAxisLabel
          = some (specStatisticDisplay axisWitnessState.model.statistic)) :=
  ⟨⟨by decide, by decide⟩,
    updateChart_axis_labels axisWitnessState (by decide) (by decide)⟩

/-- C10: for every `orderBy` outside the four recognized values, the
comparator yields no result (coerced to zero), so the stable sort treats
every pair as tied and returns the list unchanged, without throwing. -/
theorem sortData_unknown_orderBy (ob : String) (hob : ob ∉ recognizedOrderBys)
    (l : List SalesRec) : sortPure ob l = l := by
  have hall : ∀ a b : SalesRec, jsLe ob a b := fun a b =>
    le_of_eq (jsCompare_other ob hob a b)
  have hs : l.Pairwise (jsLe ob) := by
    induction l with
    | nil => exact List.Pairwise.nil
    | cons a t ih => exact List.Pairwise.cons (fun b _ => hall a b) ih
  exact List.Sorted.insertionSort_eq hs

/-- Witness for C10 at the unrecognized `orderBy` value `"count"`. -/
theorem sortData_unknown_orderBy_witness :
    ("count" ∉ recognizedOrderBys)
    ∧ sortPure "count" [⟨"B", 2⟩, ⟨"A", 5⟩] = [⟨"B", 2⟩, ⟨"A", 5⟩] :=
  ⟨by decide, sortData_unknown_orderBy "count" (by decide) [⟨"B", 2⟩, ⟨"A", 5⟩]⟩

/-- After `formatData`, the observed RenderSpec equals the pure reshape of
the state's current records and selection. -/
theorem formatData_fresh (s : CState) :
    derefSpec (formatData s).heap (formatData s).model.data
      = formatDataPure (formatData s).model.chartType (formatData s).model.cohort
          (formatData s).records := by
  show derefSpec s.heap (formatData s).model.data
      = formatDataPure s.model.chartType s.model.cohort s.records
  by_cases h1 : s.model.chartType = "discreteBarChart"
  · simp [formatData, formatDataPure, derefSpec, h1, CState.records]
  · by_cases h2 : s.model.chartType = "stackedAreaChart"
    · simp [formatData, formatDataPure, derefSpec, h1, h2, CState.records]
    · simp [formatData, formatDataPure, derefSpec, h1, h2, CState.records]

/-- C1 (amended): after every operation — in-place sort, reshape, chart
update, fetch completion — the RenderSpec observed through the heap equals a
fresh recomputation from the then-current records and selection.  The
original claim's second half ("no operation modifies a previously produced
RenderSpec value") fails on the code, because the bar and pie RenderSpecs
alias the `tempData` array that `sortData` sorts in place; see the
counterexample. -/
theorem renderSpec_recomputed (s : CState) (d : List SalesRec) :
    (derefSpec (sortData s).heap (sortData s).model.data
        = formatDataPure (sortData s).model.chartType (sortData s).model.cohort
            (sortData s).records)
    ∧ (derefSpec (formatData s).heap (formatData s).model.data
        = formatDataPure (formatData s).model.chartType (formatData s).model.cohort
            (formatData s).records)
    ∧ (derefSpec (updateChart s).heap (updateChart s).model.data
        = formatDataPure (updateChart s).model.chartType (updateChart s).model.cohort
            (updateChart s).records)
    ∧ (derefSpec (applyFetchSuccess s d).heap (applyFetchSuccess s d).model.data
        = formatDataPure (applyFetchSuccess s d).model.chartType
            (applyFetchSuccess s d).model.cohort (applyFetchSuccess s d).records) :=
  ⟨formatData_fresh { s with
      heap := s.heap.set s.tempData (sortPure s.model.orderBy s.records) },
    formatData_fresh s,
    formatData_fresh s,
    formatData_fresh (sortData { s with
      heap := s.heap ++ [d], tempData := s.heap.length })⟩

/-- Records delivered by the backend in the aliasing scenario of C1. -/
def aliasFetchData : List SalesRec := [⟨"B", 2⟩, ⟨"A", 5⟩]

/-- State after the initial fetch completes (bar chart, sorted A to Z). -/
def aliasState1 : CState := applyFetchSuccess initState aliasFetchData

/-- State after the user then changes `orderBy` to `"Z to A"`, which
re-sorts the `tempData` array in place. -/
def aliasState2 : CState := (setField aliasState1 "orderBy" "Z to A").1

/-- C1 is violated as stated: the RenderSpec produced before the re-sort no
longer dereferences to the value it had when it was produced — the in-place
sort mutated it through the bar series' alias of the `tempData` array. -/
theorem renderSpec_alias_mutation :
    derefSpec aliasState2.heap aliasState1.model.data
      ≠ derefSpec aliasState1.heap aliasState1.model.data := by decide

/-- `sortData` permutes the current records (the heap cell is overwritten
with a sorted permutation of its previous contents). -/
theorem sortData_records_perm (s : CState) :
    ((sortData s).records).Perm s.records := by
  show ((s.heap.set s.tempData (sortPure s.model.orderBy s.records)).getD
      s.tempData []).Perm s.records
  by_cases hn : s.tempData < s.heap.length
  · rw [List.getD_eq_getElem?_getD, List.getElem?_set_self (by simpa using hn)]
    exact List.perm_insertionSort _ _
  · rw [List.set_eq_of_length_le (by omega)]
    exact List.Perm.refl _

/-- The four settable properties of the settings catalog. -/
def settableProps : List String := ["chartType", "cohort", "statistic", "orderBy"]

/-- C2: a settings change triggers a DataSource fetch iff it changes
`cohort` or `statistic`, and then it is exactly one query carrying the
updated `(statistic, cohort)` parameters; a change of `chartType` or
`orderBy` performs no fetch and only re-sorts/reshapes the existing records
(their multiset is unchanged). -/
theorem setField_fetch_iff (s : CState) (p v : String) (hp : p ∈ settableProps) :
    ((setField s p v).2 ≠ [] ↔ (p = "cohort" ∨ p = "statistic"))
    ∧ ((p = "cohort" ∨ p = "statistic") →
        (setField s p v).2
          = [.fetch (setProp s p v).model.statistic (setProp s p v).model.cohort])
    ∧ ((p = "chartType" ∨ p = "orderBy") →
        (setField s p v).2 = [] ∧ ((setField s p v).1.records).Perm s.records) := by
  simp only [settableProps, List.mem_cons, List.not_mem_nil, or_false] at hp
  rcases hp with rfl | rfl | rfl | rfl
  · refine ⟨?_, by simp, fun _ => ⟨rfl, List.Perm.refl _⟩⟩
    rw [show (setField s "chartType" v).2 = [] from rfl]
    simp
  · refine ⟨?_, fun _ => rfl, by simp⟩
    rw [show (setField s "cohort" v).2
        = [.fetch (setProp s "cohort" v).model.statistic
            (setProp s "cohort" v).model.cohort] from rfl]
    simp
  · refine ⟨?_, fun _ => rfl, by simp⟩
    rw [show (setField s "statistic" v).2
        = [.fetch (setProp s "statistic" v).model.statistic
            (setProp s "statistic" v).model.cohort] from rfl]
    simp
  · refine ⟨?_, by simp, fun _ => ⟨rfl, sortData_records_perm (setProp s "orderBy" v)⟩⟩
    rw [show (setField s "orderBy" v).2 = [] from rfl]
    simp

/-- Witness for C2: changing the cohort on the initial state fetches once
with the updated parameters. -/
theorem setField_fetch_iff_witness :
    ("cohort" ∈ settableProps)
    ∧ (((setField initState "cohort" "product").2 ≠ []
          ↔ ("cohort" = "cohort" ∨ "cohort" = "statistic"))
    ∧ (("cohort" = "cohort" ∨ "cohort" = "statistic") →
        (setField initState "cohort" "product").2
          = [.fetch (setProp initState "cohort" "product").model.statistic
               (setProp initState "cohort" "product").model.cohort])
    ∧ (("cohort" = "chartType" ∨ "cohort" = "orderBy") →
        (setField initState "cohort" "product").2 = []
        ∧ ((setField initState "cohort" "product").1.records).Perm
            initState.records)) :=
  ⟨by decide, setField_fetch_iff initState "cohort" "product" (by decide)⟩

/-- C3 (amended): on DataSource failure the stored records and the
RenderSpec keep their previous value — the whole controller state is
unchanged — but, contrary to the claim, no failure report reaches the
caller/UI layer: the handling emits no effect at all, because `updateData`
registers no error callback with `SalesService.getData`. -/
theorem fetch_failure_silent (s : CState) (e : String) :
    handleResult s (.failure e) = (s, []) := rfl

/-- C3 is violated as stated: at a concrete failing request, the failure
handling leaves the state untouched and emits no effect whatsoever — in
particular no `Effect.report` — so nothing is reported to the caller/UI. -/
theorem fetch_failure_unreported :
    (handleResult initState (.failure "network error")).2 = []
    ∧ (handleResult initState (.failure "network error")).1 = initState :=
  ⟨rfl, rfl⟩

/-- C4 (amended): fetch completions are applied unconditionally in arrival
order — the last-arrived response's data becomes the stored records (sorted
by the current `orderBy`), regardless of whether its originating Selection
matches the current one.  Records therefore reflect the latest Selection
only when its response happens to arrive last; see the counterexample for
the stale-overwrite order. -/
theorem fetch_last_write_wins (s : CState) (d : List SalesRec) :
    (applyFetchSuccess s d).records = sortPure s.model.orderBy d := by
  show (((s.heap ++ [d]).set s.heap.length
      (sortPure s.model.orderBy ((s.heap ++ [d]).getD s.heap.length []))).getD
        s.heap.length [])
    = sortPure s.model.orderBy d
  have h1 : (s.heap ++ [d]).getD s.heap.length [] = d := by
    rw [List.getD_eq_getElem?_getD, List.getElem?_concat_length]
    rfl
  rw [h1, List.getD_eq_getElem?_getD,
    List.getElem?_set_self (by simp)]
  rfl

/-- The stale response (to the query for the initial `''` cohort) in the
race scenario of C4. -/
def staleResponse : List SalesRec := [⟨"all", 1⟩]

/-- The fresh response (to the query for the `product` cohort) in the race
scenario of C4. -/
def freshResponse : List SalesRec := [⟨"prod", 2⟩]

/-- State after the user selects the `product` cohort while the initial
fetch (for cohort `''`) is still in flight. -/
def raceState1 : CState := (setField initState "cohort" "product").1

/-- State after the `product` response arrives and then the stale `''`
response arrives last. -/
def raceState3 : CState :=
  applyFetchSuccess (applyFetchSuccess raceState1 freshResponse) staleResponse

/-- C4 is violated as stated: when the stale response completes last, the
stored records are the stale response's data, not the current Selection's
(`product`) data, although both responses were delivered. -/
theorem stale_fetch_overwrites :
    raceState3.model.cohort = "product"
    ∧ raceState3.records = staleResponse
    ∧ raceState3.records ≠ freshResponse := by decide

end ChartTest
